import Mathlib

/-!
Verification of the tape-device discovery, selection, and command-running
logic of the LTFS GUI (`ltfs_gui.py`), as a shallow embedding in Lean 4.

The embedding models the subprocess / filesystem environment explicitly:
a `ScanEnv` records the `/dev` directory entries together with the outcome
of the two per-device probes the scanner performs (`mt -f <dev> status`
and an open-for-read attempt), and a `CmdOutcome` records what a single
`subprocess.run` invocation would produce (either a completed process with
an exit code and captured output, or a raised exception message).
All functions are direct translations of the corresponding Python methods
of `LTFSManager` / `LTFSGui`.
-/

namespace LTFS

/-- Outcome of one `subprocess.run` call: the process completed with an exit
code and captured stdout/stderr, or launching/running it raised an exception
with the given message. -/
inductive CmdOutcome where
  | completed (returncode : Int) (stdout stderr : String)
  | raised (message : String)
deriving DecidableEq

/-- Model of `LTFSManager.run_command` with `capture_output=True` (the default):
returns `(returncode == 0, stdout, stderr)`, and on any exception
`(False, "", str(e))`. -/
def run_command (outcome : CmdOutcome) : Bool × String × String :=
  match outcome with
  | .completed rc out err => (rc == 0, out, err)
  | .raised msg => (false, "", msg)

/-- Model of `LTFSManager.run_command` with `capture_output=False`: the output is not
captured, so the returned stdout/stderr are empty strings. -/
def run_command_no_capture (outcome : CmdOutcome) : Bool × String × String :=
  match outcome with
  | .completed rc _ _ => (rc == 0, "", "")
  | .raised msg => (false, "", msg)

/-- Outcome of the `mt -f <device> status` responsiveness probe run on each
override candidate: the subprocess completed with an exit code and a stderr
that does or does not contain the substring "No such device", or it raised
`TimeoutExpired`/`CalledProcessError`. -/
inductive MtOutcome where
  | completed (returncode : Int) (stderrHasNoSuchDevice : Bool)
  | timeoutOrError
deriving DecidableEq

/-- The acceptance test applied to the `mt` probe result in
`refresh_drives`: `result.returncode == 0 or 'No such device' not in
result.stderr.decode()`; a timeout or called-process error skips the
device. -/
def mt_probe_accepts (o : MtOutcome) : Bool :=
  match o with
  | .completed rc noSuch => rc == 0 || !noSuch
  | .timeoutOrError => false

/-- Outcome of attempting `open(device, 'rb')` in `_can_access_device`. -/
inductive AccessOutcome where
  | ok
  | permissionError
  | otherError
deriving DecidableEq

/-- Model of `LTFSManager._can_access_device`: `PermissionError` yields `False`;
success or any `OSError`/`IOError` (busy device, no such device) yields
`True`. -/
def can_access_device (o : AccessOutcome) : Bool :=
  match o with
  | .ok => true
  | .permissionError => false
  | .otherError => true

/-- One directory entry of `/dev`: its name and whether it is a character
device. -/
structure DevEntry where
  name : String
  isCharDevice : Bool
deriving DecidableEq

/-- The environment a discovery scan observes: the `/dev` entries (in
directory enumeration order) and, for each device path, the outcome of the
`mt status` probe and of the open-for-read accessibility probe. -/
structure ScanEnv where
  entries : List DevEntry
  mtProbe : String → MtOutcome
  accessProbe : String → AccessOutcome

/-- The full path of a `/dev` entry. -/
def devPath (e : DevEntry) : String := "/dev/" ++ e.name

/-- The reserved stream names excluded by `refresh_drives`. -/
def reservedNames : List String := ["stdin", "stdout", "stderr"]

/-- Is `c` one of the density/compatibility mode letters `a`, `l`, `m`? -/
def isModeChar (c : Char) : Bool := c == 'a' || c == 'l' || c == 'm'

/-- The part of the tape-name regex after `st`: `\d+[alm]?$` — one or more
digits followed by at most one mode letter, consuming the whole rest. -/
def digitsThenOptMode (cs : List Char) : Bool :=
  let ds := cs.takeWhile Char.isDigit
  let rest := cs.dropWhile Char.isDigit
  !ds.isEmpty &&
    (match rest with
     | [] => true
     | [c] => isModeChar c
     | _ => false)

/-- The regex `re.match(r'st\d+[alm]?$', name)` on a character list. -/
def matches_st_chars (cs : List Char) : Bool :=
  match cs with
  | 's' :: 't' :: rest => digitsThenOptMode rest
  | _ => false

/-- The regex `re.match(r'st\d+[alm]?$', name)` on a device name. -/
def matches_st_name (s : String) : Bool := matches_st_chars s.toList

/-- The spec pattern `^n?st\d+[alm]?$` on a character list: either the
`n`-absent or the `n`-present alternative. -/
def matches_nst_chars (cs : List Char) : Bool :=
  matches_st_chars cs ||
    (match cs with
     | 'n' :: rest => matches_st_chars rest
     | _ => false)

/-- The spec pattern `^n?st\d+[alm]?$` on a device name. -/
def matches_nst_name (s : String) : Bool := matches_nst_chars s.toList

/-- The `Path('/dev').glob('st*')` membership test: the name starts with `st`. -/
def glob_st_match (s : String) : Bool :=
  match s.toList with
  | 's' :: 't' :: _ => true
  | _ => false

/-- The condition under which `refresh_drives` accepts a globbed entry as an
override device: character device, not a reserved stream name, matches
`st\d+[alm]?$`, is not the primary device, and passes the `mt status`
probe. -/
def override_accept (env : ScanEnv) (e : DevEntry) : Bool :=
  glob_st_match e.name &&
  e.isCharDevice &&
  !(reservedNames.contains e.name) &&
  matches_st_name e.name &&
  !(devPath e == "/dev/st0") &&
  mt_probe_accepts (env.mtProbe (devPath e))

/-- The accepted override entries, in directory enumeration order. -/
def override_entries (env : ScanEnv) : List DevEntry :=
  env.entries.filter (fun e => override_accept env e)

/-- The accepted override device paths (before sorting). -/
def override_devices (env : ScanEnv) : List String :=
  (override_entries env).map devPath

/-- The override devices whose accessibility probe raised a permission
error; these are appended to `permission_issues` inside the scan loop. -/
def override_perm_issues (env : ScanEnv) : List String :=
  ((override_entries env).filter
    (fun e => !(can_access_device (env.accessProbe (devPath e))))).map devPath

/-- The check `Path('/dev/st0').exists() and Path('/dev/st0').is_char_device()`. -/
def primary_present (env : ScanEnv) : Bool :=
  env.entries.any (fun e => e.name == "st0" && e.isCharDevice)

/-- The primary-device portion of the drive list. -/
def primary_drives (env : ScanEnv) : List String :=
  if primary_present env then ["/dev/st0"] else []

/-- The primary-device portion of `permission_issues`. -/
def primary_perm_issues (env : ScanEnv) : List String :=
  if primary_present env && !(can_access_device (env.accessProbe "/dev/st0")) then
    ["/dev/st0"]
  else []

/-- Python's `sorted` on a list of strings: a stable ascending sort by the
lexicographic string order, modeled by insertion sort. -/
def sortedPy (l : List String) : List String :=
  l.insertionSort (· ≤ ·)

/-- The mode entry recorded for one device node: device path, mode suffix
name, and human-readable description. -/
structure ModeInfo where
  device : String
  mode : String
  description : String
deriving DecidableEq

/-- One physical drive as grouped by `refresh_drives`: its rewinding and
non-rewinding device nodes and its drive number (the digit string from the
device name). -/
structure PhysicalDrive where
  rewinding : List ModeInfo
  non_rewinding : List ModeInfo
  drive_number : String
deriving DecidableEq

/-- Model of `LTFSManager._get_mode_description`. -/
def get_mode_description (m : String) : String :=
  if m = "default" then "Default (compression enabled)"
  else if m = "a" then "Auto-density selection"
  else if m = "l" then "Low/Legacy density mode"
  else if m = "m" then "Medium density mode"
  else "Mode " ++ m

/-- The `st(\d+)([alm]?)$` part of the grouping regex: returns the digit
string and the (possibly empty) mode-suffix string. -/
def parse_tail (cs : List Char) : Option (String × String) :=
  match cs with
  | 's' :: 't' :: rest =>
    let ds := rest.takeWhile Char.isDigit
    let sfx := rest.dropWhile Char.isDigit
    if ds.isEmpty then none
    else
      match sfx with
      | [] => some (String.mk ds, "")
      | [c] => if isModeChar c then some (String.mk ds, String.mk [c]) else none
      | _ => none
  | _ => none

/-- The grouping regex `/dev/(n?)st(\d+)([alm]?)$` of `refresh_drives`:
returns `(rewinding, driveNumber, modeSuffix)`, where `rewinding` is true
when the `n` is absent. -/
def parse_device_path (path : String) : Option (Bool × String × String) :=
  match path.toList with
  | '/' :: 'd' :: 'e' :: 'v' :: '/' :: 'n' :: rest =>
      (parse_tail rest).map (fun p => (false, p.1, p.2))
  | '/' :: 'd' :: 'e' :: 'v' :: '/' :: rest =>
      (parse_tail rest).map (fun p => (true, p.1, p.2))
  | _ => none

/-- Replace the value stored under key `pid` (if present) by applying `f`,
keeping the association order; models mutating `self.physical_drives[pid]`
in place. -/
def updatePD (pds : List (String × PhysicalDrive)) (pid : String)
    (f : PhysicalDrive → PhysicalDrive) : List (String × PhysicalDrive) :=
  match pds with
  | [] => []
  | (k, pd) :: rest =>
    if k = pid then (k, f pd) :: rest else (k, pd) :: updatePD rest pid f

/-- One iteration of the grouping loop of `refresh_drives`: parse the drive
path, create the physical-drive record on first sight of its key, and append
the mode entry to the rewinding or non-rewinding list. -/
def add_drive_to_groups (pds : List (String × PhysicalDrive)) (drive : String) :
    List (String × PhysicalDrive) :=
  match parse_device_path drive with
  | none => pds
  | some (rew, n, sfx) =>
    let pid := "drive" ++ n
    let mode := if sfx = "" then "default" else sfx
    let mi : ModeInfo := ⟨drive, mode, get_mode_description mode⟩
    let pds1 := if pds.any (fun p => p.1 == pid) then pds else pds ++ [(pid, ⟨[], [], n⟩)]
    updatePD pds1 pid (fun pd =>
      if rew then { pd with rewinding := pd.rewinding ++ [mi] }
      else { pd with non_rewinding := pd.non_rewinding ++ [mi] })

/-- The grouping loop of `refresh_drives` over the collected drive list. -/
def group_drives (drives : List String) : List (String × PhysicalDrive) :=
  drives.foldl add_drive_to_groups []

/-- The result of one discovery scan: the mutable fields `refresh_drives`
rebuilds (`tape_drives`, `physical_drives`, `permission_issues`,
`single_drive_mode`). -/
structure DiscoveryResult where
  tape_drives : List String
  physical_drives : List (String × PhysicalDrive)
  permission_issues : List String
  single_drive_mode : Bool
deriving DecidableEq

/-- Model of `LTFSManager.refresh_drives`: primary `/dev/st0` first (when present and
a character device), then the sorted probe-gated `st*` overrides; permission
issues deduplicated via `list(set(...))` (modeled as order-normalizing
deduplication — membership and uniqueness agree with the Python set); drives
grouped per physical drive; single-drive mode iff exactly one group. -/
def refresh_drives (env : ScanEnv) : DiscoveryResult :=
  let drives := primary_drives env ++ sortedPy (override_devices env)
  { tape_drives := drives
    physical_drives := group_drives drives
    permission_issues := (primary_perm_issues env ++ override_perm_issues env).dedup
    single_drive_mode := (group_drives drives).length == 1 }

/-- Model of `LTFSGui.update_mount_tab_mode`, device-default part: select `/dev/st0`
when available, otherwise the first discovered device, otherwise keep the
prior combo-box value. -/
def update_mount_tab_default (prior : String) (drives : List String) : String :=
  if "/dev/st0" ∈ drives then "/dev/st0"
  else
    match drives with
    | [] => prior
    | d :: _ => d

/-- Model of `LTFSGui.get_selected_device`: return the combo-box value; when it is
empty (falsy), auto-select the first available device if any. -/
def get_selected_device (selected : String) (drives : List String) : String :=
  if selected = "" then
    match drives with
    | [] => selected
    | d :: _ => d
  else selected

/-- The selection flow with no explicit mode or user choice: the combo box
starts empty, `update_mount_tab_mode` fills in the default after a scan, and
`get_selected_device` reads it back. -/
def select_device_no_mode (env : ScanEnv) : String :=
  let drives := (refresh_drives env).tape_drives
  get_selected_device (update_mount_tab_default "" drives) drives

/-- Model of `LTFSGui.update_mode_options`: the mode list chosen by the rewinding
preference for the first (single) physical drive. -/
def selected_mode_list (env : ScanEnv) (prefersRewinding : Bool) : List ModeInfo :=
  match (refresh_drives env).physical_drives with
  | [] => []
  | (_, pd) :: _ => if prefersRewinding then pd.rewinding else pd.non_rewinding

/-- The `for cmd in commands: ... if success: break` retry loop shared by
`mount_tape` and `unmount_tape`: run each command in order, stop at the
first success, and otherwise keep the last attempt's result.  Returns the
final `(success, stdout, stderr)` together with the list of commands
actually attempted, in order. -/
def try_commands (run : String → Bool × String × String) :
    (Bool × String × String) → List String → (Bool × String × String) × List String
  | res, [] => (res, [])
  | _, cmd :: rest =>
    let r := run cmd
    if r.1 then (r, [cmd])
    else
      let (r2, att) := try_commands run r rest
      (r2, cmd :: att)

/-- First mount variant: `sudo ltfs -o devname={device} {options} {mount_point}`. -/
def mount_cmd1 (device options mount_point : String) : String :=
  "sudo ltfs -o devname=" ++ device ++ " " ++ options ++ " " ++ mount_point

/-- Second mount variant, adding `force_mount_no_eod`. -/
def mount_cmd2 (device options mount_point : String) : String :=
  "sudo ltfs -o devname=" ++ device ++ ",force_mount_no_eod " ++ options ++ " " ++ mount_point

/-- Third mount variant, adding `sync_type=unmount`. -/
def mount_cmd3 (device options mount_point : String) : String :=
  "sudo ltfs -o devname=" ++ device ++ ",sync_type=unmount " ++ options ++ " " ++ mount_point

/-- Fourth mount variant, adding both extra options. -/
def mount_cmd4 (device options mount_point : String) : String :=
  "sudo ltfs -o devname=" ++ device ++ ",force_mount_no_eod,sync_type=unmount " ++ options
    ++ " " ++ mount_point

/-- The ordered `mount_commands` list of `LTFSManager.mount_tape`. -/
def mount_commands (device mount_point options : String) : List String :=
  [mount_cmd1 device options mount_point,
   mount_cmd2 device options mount_point,
   mount_cmd3 device options mount_point,
   mount_cmd4 device options mount_point]

/-- The ordered `unmount_commands` list of `LTFSManager.unmount_tape`. -/
def unmount_commands (mount_point : String) : List String :=
  ["sudo umount '" ++ mount_point ++ "'",
   "fusermount -u '" ++ mount_point ++ "'",
   "sudo fusermount -u '" ++ mount_point ++ "'"]

/-- The first unmount command (`umount`, via sudo). -/
def unmount_cmd1 (mount_point : String) : String := "sudo umount '" ++ mount_point ++ "'"

/-- The second unmount command (`fusermount -u`). -/
def unmount_cmd2 (mount_point : String) : String := "fusermount -u '" ++ mount_point ++ "'"

/-- The value stored in `self.mounted_tapes[mount_point]` by `mount_tape`. -/
structure MountInfo where
  device : String
  mount_point : String
  options : String
deriving DecidableEq

/-- Python dict assignment `d[k] = v` on an association list with unique
keys in insertion order: replace in place when the key exists, else append. -/
def dictSet (m : List (String × MountInfo)) (k : String) (v : MountInfo) :
    List (String × MountInfo) :=
  if m.any (fun p => p.1 == k) then
    m.map (fun p => if p.1 == k then (k, v) else p)
  else m ++ [(k, v)]

/-- Python `del d[k]` (guarded by `k in d` at the call site). -/
def dictErase (m : List (String × MountInfo)) (k : String) : List (String × MountInfo) :=
  m.filter (fun p => !(p.1 == k))

/-- The test `mount_point.startswith('/media/')`, decided on the character list. -/
def starts_with_media (s : String) : Bool :=
  match s.toList with
  | '/' :: 'm' :: 'e' :: 'd' :: 'i' :: 'a' :: '/' :: _ => true
  | _ => false

/-- The environment `mount_tape` observes: the outcome of each shell command
line, the outcome of `os.makedirs` (`none` = success, `some msg` = a
`PermissionError` with message `msg`), and `os.getenv('USER')`. -/
structure MountEnv where
  run : String → CmdOutcome
  makedirs : String → Option String
  username : String

/-- The mount-point creation phase of `mount_tape`: under `/media/` run
`sudo mkdir -p` and early-return a failure triple when it fails (the
follow-up `chown` result is only warned about); elsewhere call
`os.makedirs`, early-returning on a `PermissionError`.  `none` means the
mount attempt proceeds. -/
def mount_point_pre (env : MountEnv) (mount_point : String) :
    Option (Bool × String × String) :=
  if starts_with_media mount_point then
    let r := run_command (env.run ("sudo mkdir -p '" ++ mount_point ++ "'"))
    if !r.1 then some (false, "", "Failed to create mount point: " ++ r.2.2)
    else none
  else
    match env.makedirs mount_point with
    | some msg => some (false, "", "Permission denied creating mount point: " ++ msg)
    | none => none

/-- Model of `LTFSManager.mount_tape`: create the mount point (early-returning a
failure when that fails), attempt a rewind (result only warned about), then
try the four mount command variants in order, stopping at the first
success; on success record the mount in `mounted_tapes`.  Returns the
`(success, stdout, stderr)` triple and the updated `mounted_tapes` map.
The mount commands run with `capture_output=False`. -/
def mount_tape (env : MountEnv) (mounted : List (String × MountInfo))
    (device mount_point options : String) :
    (Bool × String × String) × List (String × MountInfo) :=
  match mount_point_pre env mount_point with
  | some r => (r, mounted)
  | none =>
    let res := (try_commands (fun c => run_command_no_capture (env.run c)) (false, "", "")
      (mount_commands device mount_point options)).1
    if res.1 then (res, dictSet mounted mount_point ⟨device, mount_point, options⟩)
    else (res, mounted)

/-- The mount commands actually attempted by the retry loop of
`mount_tape`, in order. -/
def mount_attempts (env : MountEnv) (device mount_point options : String) : List String :=
  (try_commands (fun c => run_command_no_capture (env.run c)) (false, "", "")
    (mount_commands device mount_point options)).2

/-- Model of `LTFSManager.unmount_tape`: try the three unmount commands in order,
stopping at the first success; on success remove the mount point from
`mounted_tapes` when present. -/
def unmount_tape (run : String → CmdOutcome) (mounted : List (String × MountInfo))
    (mount_point : String) : (Bool × String × String) × List (String × MountInfo) :=
  let res := (try_commands (fun c => run_command (run c)) (false, "", "")
    (unmount_commands mount_point)).1
  if res.1 && mounted.any (fun p => p.1 == mount_point) then
    (res, dictErase mounted mount_point)
  else (res, mounted)

/-- The unmount commands actually attempted by the retry loop of
`unmount_tape`, in order. -/
def unmount_attempts (run : String → CmdOutcome) (mount_point : String) : List String :=
  (try_commands (fun c => run_command (run c)) (false, "", "")
    (unmount_commands mount_point)).2

/-- The mutable fields of an `LTFSManager` instance touched by discovery and
mount bookkeeping. -/
structure ManagerState where
  tape_drives : List String
  physical_drives : List (String × PhysicalDrive)
  permission_issues : List String
  single_drive_mode : Bool
  mounted_tapes : List (String × MountInfo)
deriving DecidableEq

/-- Model of `refresh_drives` as the state mutation it performs on the manager: the
four discovery fields are rebuilt from scratch; `mounted_tapes` is
untouched. -/
def refresh_drives_method (s : ManagerState) (env : ScanEnv) : ManagerState :=
  let r := refresh_drives env
  { s with
    tape_drives := r.tape_drives
    physical_drives := r.physical_drives
    permission_issues := r.permission_issues
    single_drive_mode := r.single_drive_mode }

/-- Concrete scan environment for the C1 witness: `/dev` holds `st0` and
`st0a`, both character devices; all probes benign. -/
def envC1 : ScanEnv :=
  ⟨[⟨"st0", true⟩, ⟨"st0a", true⟩], fun _ => .completed 0 false, fun _ => .ok⟩

/-- The physical drive `refresh_drives` builds for `envC1`. -/
def pdC1 : PhysicalDrive :=
  ⟨[⟨"/dev/st0", "default", "Default (compression enabled)"⟩,
    ⟨"/dev/st0a", "a", "Auto-density selection"⟩], [], "0"⟩

/-- Concrete scan environment for C2: `/dev` holds `st0`, `st0a`, `nst0`,
`nst0l`, all character devices; all probes benign. -/
def envC2 : ScanEnv :=
  ⟨[⟨"st0", true⟩, ⟨"st0a", true⟩, ⟨"nst0", true⟩, ⟨"nst0l", true⟩],
   fun _ => .completed 0 false, fun _ => .ok⟩

/-- Concrete scan environment for the C6 witness: `st0` present but its
open-for-read probe raises a permission error. -/
def envC6 : ScanEnv :=
  ⟨[⟨"st0", true⟩], fun _ => .completed 0 false, fun _ => .permissionError⟩

/-- Concrete scan environment for the C8 counterexample: a single drive with
only the rewinding node `st0`. -/
def envC8 : ScanEnv :=
  ⟨[⟨"st0", true⟩], fun _ => .completed 0 false, fun _ => .ok⟩

/-- Concrete empty scan environment (no `/dev` tape entries). -/
def envEmpty : ScanEnv :=
  ⟨[], fun _ => .timeoutOrError, fun _ => .ok⟩

/-- Scan environment for the C9 counterexample, first scan: `st1` present
and its `mt status` probe succeeds. -/
def envC9a : ScanEnv :=
  ⟨[⟨"st1", true⟩], fun _ => .completed 0 false, fun _ => .ok⟩

/-- Scan environment for the C9 counterexample, second scan: identical
`/dev` contents, but the `mt status` probe times out. -/
def envC9b : ScanEnv :=
  ⟨[⟨"st1", true⟩], fun _ => .timeoutOrError, fun _ => .ok⟩

/-- Command environment for the C4 witness: only the fourth mount variant
for device `/dev/st0`, mount point `/mnt/tape`, empty options succeeds. -/
def runC4 : String → CmdOutcome :=
  fun c => if c = mount_cmd4 "/dev/st0" "" "/mnt/tape" then .completed 0 "" ""
           else .completed 1 "" "mount failed"

/-- Command environment for the C5 witness: `umount` fails, `fusermount -u`
succeeds with distinctive output. -/
def runC5 : String → CmdOutcome :=
  fun c => if c = unmount_cmd2 "/mnt/tape" then .completed 0 "fuse ok" ""
           else .completed 32 "" "umount: not mounted"

/-- Mount environment for the C4 witness: commands behave per `runC4`,
`os.makedirs` succeeds, user is `user`. -/
def mountEnvC4 : MountEnv := ⟨runC4, fun _ => none, "user"⟩

/-- The invariant maintained by the grouping loop of `refresh_drives`: every
group is keyed `drive<N>` by its drive number, and every rewinding mode
entry records a drive from the scanned list whose path parses as a rewinding
node of that drive number, with the mode field derived from the parsed
suffix. -/
def GroupInv (S : List String) (pds : List (String × PhysicalDrive)) : Prop :=
  ∀ pid pd, (pid, pd) ∈ pds →
    pid = "drive" ++ pd.drive_number ∧
    ∀ mi ∈ pd.rewinding, mi.device ∈ S ∧
      ∃ sfx, parse_device_path mi.device = some (true, pd.drive_number, sfx) ∧
        mi.mode = (if sfx = "" then "default" else sfx)

end LTFS

namespace LTFS

/-! ### Helper lemmas -/

theorem str_append_left_cancel {a b c : String} (h : a ++ b = a ++ c) : b = c := by
  have hd : a.data ++ b.data = a.data ++ c.data := by
    have h2 := congrArg String.data h
    simpa [String.data_append] using h2
  exact String.ext (List.append_cancel_left hd)

theorem str_append_empty (a : String) : a ++ "" = a := by
  apply String.ext
  simp [String.data_append]

theorem list_lt_append_cons (l : List Char) (c : Char) (cs : List Char) :
    l < l ++ c :: cs := by
  show List.Lex (· < ·) l (l ++ c :: cs)
  induction l with
  | nil => exact List.Lex.nil
  | cons x xs ih => exact List.Lex.cons ih

theorem str_lt_append (a : String) {s : String} (hs : s ≠ "") : a < a ++ s := by
  rw [String.lt_iff_toList_lt]
  have hto : (a ++ s).toList = a.toList ++ s.toList := by
    simp [String.toList, String.data_append]
  rw [hto]
  cases hsl : s.toList with
  | nil =>
    exact absurd (String.ext (by simpa [String.toList] using hsl)) hs
  | cons c cs =>
    exact list_lt_append_cons a.toList c cs

theorem str_append_le_self {a s : String} (h : a ++ s ≤ a) : s = "" := by
  by_contra hs
  exact absurd (lt_of_lt_of_le (str_lt_append a hs) h) (lt_irrefl a)

theorem str_append_right_ne {a s : String} (hs : s ≠ "") : a ≠ a ++ s :=
  ne_of_lt (str_lt_append a hs)

theorem mem_sortedPy {l : List String} {x : String} : x ∈ sortedPy l ↔ x ∈ l :=
  List.mem_insertionSort _

theorem sortedPy_head_le {l : List String} {d : String} {t : List String}
    (h : sortedPy l = d :: t) {x : String} (hx : x ∈ sortedPy l) : d ≤ x := by
  have hs : (sortedPy l).Sorted (· ≤ ·) := List.sorted_insertionSort _ l
  rw [h] at hs hx
  rcases List.mem_cons.mp hx with rfl | hx2
  · exact le_refl x
  · exact (List.sorted_cons.mp hs).1 x hx2

theorem parse_tail_spec {cs : List Char} {n sfx : String}
    (h : parse_tail cs = some (n, sfx)) :
    cs = 's' :: 't' :: (n.data ++ sfx.data) ∧
      (sfx = "" ∨ sfx = "a" ∨ sfx = "l" ∨ sfx = "m") := by
  unfold parse_tail at h
  split at h
  case _ rest =>
    simp only at h
    split at h
    · exact absurd h (by simp)
    · split at h
      case _ hdrop =>
        rw [Option.some_inj] at h
        obtain ⟨rfl, rfl⟩ : String.mk (rest.takeWhile Char.isDigit) = n ∧ "" = sfx := by
          constructor
          · exact congrArg Prod.fst h
          · exact congrArg Prod.snd h
        constructor
        · have : rest = rest.takeWhile Char.isDigit ++ rest.dropWhile Char.isDigit :=
            (List.takeWhile_append_dropWhile _ _).symm
          rw [hdrop, List.append_nil] at this
          simp [String.data]
          exact this
        · left; rfl
      case _ c hdrop =>
        split at h
        case isTrue hmode =>
          rw [Option.some_inj] at h
          obtain ⟨rfl, rfl⟩ : String.mk (rest.takeWhile Char.isDigit) = n ∧
              String.mk [c] = sfx := by
            constructor
            · exact congrArg Prod.fst h
            · exact congrArg Prod.snd h
          constructor
          · have : rest = rest.takeWhile Char.isDigit ++ rest.dropWhile Char.isDigit :=
              (List.takeWhile_append_dropWhile _ _).symm
            rw [hdrop] at this
            simp [String.data]
            exact this
          · have hc : c = 'a' ∨ c = 'l' ∨ c = 'm' := by
              have hm := hmode
              unfold isModeChar at hm
              rcases Bool.or_eq_true_iff.mp hm with hm' | hm'
              · rcases Bool.or_eq_true_iff.mp hm' with hm'' | hm''
                · exact Or.inl (by simpa using hm'')
                · exact Or.inr (Or.inl (by simpa using hm''))
              · exact Or.inr (Or.inr (by simpa using hm'))
            rcases hc with rfl | rfl | rfl
            · right; left; rfl
            · right; right; left; rfl
            · right; right; right; rfl
        case isFalse => exact absurd h (by simp)
      case _ => exact absurd h (by simp)
  case _ => exact absurd h (by simp)

theorem parse_device_path_spec {p : String} {n sfx : String}
    (h : parse_device_path p = some (true, n, sfx)) :
    p = "/dev/st" ++ n ++ sfx ∧ (sfx = "" ∨ sfx = "a" ∨ sfx = "l" ∨ sfx = "m") := by
  unfold parse_device_path at h
  split at h
  case _ rest heq =>
    rcases Option.map_eq_some'.mp h with ⟨pr, _, hpr⟩
    exact absurd (congrArg (fun q : Bool × String × String => q.1) hpr) (by simp)
  case _ rest heq =>
    rcases Option.map_eq_some'.mp h with ⟨pr, hpt, hpr⟩
    obtain ⟨p1, p2⟩ := pr
    have hn : p1 = n := by simpa using congrArg (fun q : Bool × String × String => q.2.1) hpr
    have hs : p2 = sfx := by simpa using congrArg (fun q : Bool × String × String => q.2.2) hpr
    subst hn; subst hs
    obtain ⟨hrest, hshape⟩ := parse_tail_spec hpt
    refine ⟨?_, hshape⟩
    apply String.ext
    have hdata : p.data = p.toList := rfl
    rw [hdata, heq, hrest]
    simp [String.data_append]
  case _ => exact absurd h (by simp)

theorem matches_nst_of_st {cs : List Char} (h : matches_st_chars cs = true) :
    matches_nst_chars cs = true := by
  unfold matches_nst_chars
  rw [h]
  rfl

theorem mem_updatePD {pds : List (String × PhysicalDrive)} {pid : String}
    {f : PhysicalDrive → PhysicalDrive} {k : String} {pd' : PhysicalDrive}
    (h : (k, pd') ∈ updatePD pds pid f) :
    (k, pd') ∈ pds ∨ (k = pid ∧ ∃ pd, (pid, pd) ∈ pds ∧ pd' = f pd) := by
  induction pds with
  | nil => simp [updatePD] at h
  | cons hd rest ih =>
    obtain ⟨k0, pd0⟩ := hd
    by_cases hk : k0 = pid
    · rw [updatePD, if_pos hk] at h
      rcases List.mem_cons.mp h with heq | hmem
      · right
        have hk' : k = k0 := congrArg Prod.fst heq
        have hpd : pd' = f pd0 := congrArg Prod.snd heq
        exact ⟨hk'.trans hk, pd0, by rw [← hk]; exact List.mem_cons_self _ _, hpd⟩
      · exact Or.inl (List.mem_cons_of_mem _ hmem)
    · rw [updatePD, if_neg hk] at h
      rcases List.mem_cons.mp h with heq | hmem
      · exact Or.inl (heq ▸ List.mem_cons_self _ _)
      · rcases ih hmem with hm | ⟨hkp, pd, hpd, hf⟩
        · exact Or.inl (List.mem_cons_of_mem _ hm)
        · exact Or.inr ⟨hkp, pd, List.mem_cons_of_mem _ hpd, hf⟩

theorem groupinv_step {S : List String} {pds : List (String × PhysicalDrive)}
    (h : GroupInv S pds) {d : String} (hd : d ∈ S) :
    GroupInv S (add_drive_to_groups pds d) := by
  unfold add_drive_to_groups
  cases hp : parse_device_path d with
  | none => exact h
  | some trip =>
    obtain ⟨rew, n, sfx⟩ := trip
    simp only
    intro pid pd hmem
    have h1 : GroupInv S
        (if pds.any (fun p => p.1 == ("drive" ++ n)) then pds
         else pds ++ [("drive" ++ n, ⟨[], [], n⟩)]) := by
      split
      · exact h
      · intro pid' pd' hmem'
        rcases List.mem_append.mp hmem' with hm | hm
        · exact h pid' pd' hm
        · have heq : (pid', pd') = ("drive" ++ n, (⟨[], [], n⟩ : PhysicalDrive)) := by
            simpa using hm
          have h1' : pid' = "drive" ++ n := congrArg Prod.fst heq
          have h2' : pd' = (⟨[], [], n⟩ : PhysicalDrive) := congrArg Prod.snd heq
          subst h2'
          exact ⟨h1', by intro mi hmi; simp at hmi⟩
    rcases mem_updatePD hmem with hm | ⟨rfl, pd0, hm0, rfl⟩
    · exact h1 pid pd hm
    · obtain ⟨hkey, hrew⟩ := h1 _ _ hm0
      have hnum : n = pd0.drive_number := str_append_left_cancel hkey
      cases rew with
      | false =>
        refine ⟨hkey, ?_⟩
        intro mi hmi
        simp only [if_neg Bool.false_ne_true] at hmi ⊢
        exact hrew mi hmi
      | true =>
        simp only [if_pos rfl]
        refine ⟨hkey, ?_⟩
        intro mi hmi
        rcases List.mem_append.mp hmi with hmi' | hmi'
        · exact hrew mi hmi'
        · have : mi = (⟨d, if sfx = "" then "default" else sfx,
              get_mode_description (if sfx = "" then "default" else sfx)⟩ : ModeInfo) := by
            simpa using hmi'
          subst this
          refine ⟨hd, sfx, ?_, rfl⟩
          rw [← hnum]
          exact hp

theorem groupinv_fold {S : List String} :
    ∀ (l : List String) (pds : List (String × PhysicalDrive)),
      GroupInv S pds → (∀ d ∈ l, d ∈ S) →
      GroupInv S (l.foldl add_drive_to_groups pds)
  | [], _, h, _ => h
  | d :: l, pds, h, hl =>
    groupinv_fold l (add_drive_to_groups pds d)
      (groupinv_step h (hl d (List.mem_cons_self d l)))
      (fun x hx => hl x (List.mem_cons_of_mem d hx))

theorem groupinv_refresh (env : ScanEnv) :
    GroupInv (refresh_drives env).tape_drives (refresh_drives env).physical_drives := by
  have hbase : GroupInv (refresh_drives env).tape_drives [] := by
    intro pid pd hmem
    simp at hmem
  exact groupinv_fold _ [] hbase (fun d hd => hd)

theorem select_formula (env : ScanEnv) (h : (refresh_drives env).tape_drives ≠ []) :
    ("/dev/st0" ∈ (refresh_drives env).tape_drives ∧
      select_device_no_mode env = "/dev/st0") ∨
    ("/dev/st0" ∉ (refresh_drives env).tape_drives ∧
      ∃ t, (refresh_drives env).tape_drives = select_device_no_mode env :: t) := by
  unfold select_device_no_mode get_selected_device update_mount_tab_default
  simp only
  cases hdr : (refresh_drives env).tape_drives with
  | nil => exact absurd hdr h
  | cons d t =>
    by_cases hc : "/dev/st0" ∈ d :: t
    · left
      rw [if_pos hc]
      have : ("/dev/st0" = "") = False := by simp
      rw [if_neg (by simp : ¬("/dev/st0" : String) = "")]
      exact ⟨hc, rfl⟩
    · right
      rw [if_neg hc]
      refine ⟨hc, t, ?_⟩
      by_cases hd0 : d = ""
      · rw [if_pos hd0]
      · rw [if_neg hd0]

theorem tape_drive_ne_empty {env : ScanEnv} {d : String}
    (hd : d ∈ (refresh_drives env).tape_drives) : d ≠ "" := by
  have hd' : d ∈ primary_drives env ++ sortedPy (override_devices env) := hd
  rcases List.mem_append.mp hd' with hp | ho
  · unfold primary_drives at hp
    split at hp
    · have hd0 : d = "/dev/st0" := by simpa using hp
      rw [hd0]
      decide
    · simp at hp
  · rw [mem_sortedPy] at ho
    rcases List.mem_map.mp ho with ⟨e, _, rfl⟩
    intro hcontra
    unfold devPath at hcontra
    have hdata : ("/dev/" : String).data ++ e.name.data = [] := by
      have h := congrArg String.data hcontra
      rw [String.data_append] at h
      exact h.trans (by rfl)
    exact absurd (List.append_eq_nil.mp hdata).1 (by decide)

theorem drives_eq_sorted_of_not_primary {env : ScanEnv}
    (h : "/dev/st0" ∉ (refresh_drives env).tape_drives) :
    (refresh_drives env).tape_drives = sortedPy (override_devices env) := by
  have hp : primary_drives env = [] := by
    unfold primary_drives
    split
    · exfalso
      apply h
      show "/dev/st0" ∈ primary_drives env ++ sortedPy (override_devices env)
      apply List.mem_append_left
      unfold primary_drives
      split
      · exact List.mem_cons_self _ _
      · simp_all
    · rfl
  show primary_drives env ++ sortedPy (override_devices env) = _
  rw [hp, List.nil_append]

theorem try_commands_stop (run : String → Bool × String × String) :
    ∀ (cmds1 : List String) (first : Bool × String × String) (c : String)
      (cmds2 : List String),
      (∀ x ∈ cmds1, (run x).1 = false) → (run c).1 = true →
      try_commands run first (cmds1 ++ c :: cmds2) = (run c, cmds1 ++ [c])
  | [], first, c, cmds2, _, hc => by
    show try_commands run first (c :: cmds2) = _
    unfold try_commands
    simp [hc]
  | x :: cmds1, first, c, cmds2, hfail, hc => by
    have hx : (run x).1 = false := hfail x (List.mem_cons_self x cmds1)
    have ih := try_commands_stop run cmds1 (run x) c cmds2
      (fun y hy => hfail y (List.mem_cons_of_mem x hy)) hc
    show try_commands run first ((x :: cmds1) ++ c :: cmds2) = _
    rw [List.cons_append]
    unfold try_commands
    simp [hx, ih]

theorem unmount_tape_fst (run : String → CmdOutcome)
    (mounted : List (String × MountInfo)) (mp : String) :
    (unmount_tape run mounted mp).1
      = (try_commands (fun c => run_command (run c)) (false, "", "")
          (unmount_commands mp)).1 := by
  unfold unmount_tape
  dsimp only
  split <;> rfl

theorem mount_point_pre_fails {env : MountEnv} {mp : String}
    {r : Bool × String × String} (h : mount_point_pre env mp = some r) :
    r.1 = false := by
  unfold mount_point_pre at h
  split at h
  · dsimp only at h
    split at h
    · simp only [Option.some_inj] at h
      rw [← h]
    · exact absurd h (by simp)
  · split at h
    · simp only [Option.some_inj] at h
      rw [← h]
    · exact absurd h (by simp)

end LTFS

namespace LTFS

/-! ### Claim theorems -/

/-- Claim C3: for every command line, `run_command` returns a triple whose
`succeeded` component is true exactly when the process exits with code 0;
it never raises, and any launch failure yields `succeeded = false` with the
exception text placed in stderr. -/
theorem run_command_contract (o : CmdOutcome) :
    ((run_command o).1 = true ↔ ∃ out err, o = CmdOutcome.completed 0 out err) ∧
    (∀ msg, run_command (CmdOutcome.raised msg) = (false, "", msg)) ∧
    (∀ rc out err, run_command (CmdOutcome.completed rc out err) = (rc == 0, out, err)) := by
  refine ⟨?_, fun _ => rfl, fun _ _ _ => rfl⟩
  cases o with
  | completed rc out err => simp [run_command]
  | raised msg => simp [run_command]

/-- Claim C4: the mount operation tries its ordered list of option-string
command variants, stopping at the first that succeeds; when only the last
of the four variants succeeds, all four are attempted in order and the
last attempt's result is returned as the overall (successful) result. -/
theorem mount_tries_all_variants_in_order
    (env : MountEnv) (mounted : List (String × MountInfo))
    (device mount_point options : String)
    (hmedia : starts_with_media mount_point = false)
    (hmk : env.makedirs mount_point = none)
    (h1 : (run_command_no_capture (env.run (mount_cmd1 device options mount_point))).1 = false)
    (h2 : (run_command_no_capture (env.run (mount_cmd2 device options mount_point))).1 = false)
    (h3 : (run_command_no_capture (env.run (mount_cmd3 device options mount_point))).1 = false)
    (h4 : (run_command_no_capture (env.run (mount_cmd4 device options mount_point))).1 = true) :
    mount_attempts env device mount_point options
        = mount_commands device mount_point options ∧
    (mount_tape env mounted device mount_point options).1
        = run_command_no_capture (env.run (mount_cmd4 device options mount_point)) ∧
    (mount_tape env mounted device mount_point options).1.1 = true := by
  have hres : try_commands (fun c => run_command_no_capture (env.run c)) (false, "", "")
      (mount_commands device mount_point options)
      = (run_command_no_capture (env.run (mount_cmd4 device options mount_point)),
         mount_commands device mount_point options) := by
    have h := try_commands_stop (fun c => run_command_no_capture (env.run c))
      [mount_cmd1 device options mount_point, mount_cmd2 device options mount_point,
       mount_cmd3 device options mount_point] (false, "", "")
      (mount_cmd4 device options mount_point) [] ?_ h4
    · simpa [mount_commands] using h
    · intro x hx
      simp only [List.mem_cons, List.not_mem_nil, or_false] at hx
      rcases hx with rfl | rfl | rfl
      · exact h1
      · exact h2
      · exact h3
  have hpre : mount_point_pre env mount_point = none := by
    unfold mount_point_pre
    rw [hmedia]
    simp [hmk]
  refine ⟨?_, ?_, ?_⟩
  · show (try_commands _ _ _).2 = _
    rw [hres]
  · simp [mount_tape, hpre, hres, h4]
  · simp [mount_tape, hpre, hres, h4]

/-- Witness for C4 at a concrete environment in which exactly the fourth
mount variant succeeds. -/
theorem mount_tries_all_variants_in_order_witness :
    mount_attempts mountEnvC4 "/dev/st0" "/mnt/tape" ""
        = mount_commands "/dev/st0" "/mnt/tape" "" ∧
    (mount_tape mountEnvC4 [] "/dev/st0" "/mnt/tape" "").1
        = run_command_no_capture (mountEnvC4.run (mount_cmd4 "/dev/st0" "" "/mnt/tape")) ∧
    (mount_tape mountEnvC4 [] "/dev/st0" "/mnt/tape" "").1.1 = true :=
  mount_tries_all_variants_in_order mountEnvC4 [] "/dev/st0" "/mnt/tape" ""
    (by decide) rfl (by decide) (by decide) (by decide) (by decide)

/-- Claim C5: the unmount operation tries `umount` first and then
`fusermount -u`, in that order, stopping at the first success; when
`umount` fails and `fusermount -u` succeeds, the reported result is the
second attempt's (successful) output. -/
theorem unmount_fallback_order (run : String → CmdOutcome)
    (mounted : List (String × MountInfo)) (mount_point : String)
    (h1 : (run_command (run (unmount_cmd1 mount_point))).1 = false)
    (h2 : (run_command (run (unmount_cmd2 mount_point))).1 = true) :
    unmount_attempts run mount_point
        = [unmount_cmd1 mount_point, unmount_cmd2 mount_point] ∧
    (unmount_tape run mounted mount_point).1
        = run_command (run (unmount_cmd2 mount_point)) ∧
    (unmount_tape run mounted mount_point).1.1 = true := by
  have hres : try_commands (fun c => run_command (run c)) (false, "", "")
      (unmount_commands mount_point)
      = (run_command (run (unmount_cmd2 mount_point)),
         [unmount_cmd1 mount_point, unmount_cmd2 mount_point]) := by
    have h := try_commands_stop (fun c => run_command (run c))
      [unmount_cmd1 mount_point] (false, "", "") (unmount_cmd2 mount_point)
      ["sudo fusermount -u '" ++ mount_point ++ "'"] ?_ h2
    · simpa [unmount_commands, unmount_cmd1, unmount_cmd2] using h
    · intro x hx
      simp only [List.mem_singleton] at hx
      rw [hx]
      exact h1
  refine ⟨?_, ?_, ?_⟩
  · show (try_commands _ _ _).2 = _
    rw [hres]
  · rw [unmount_tape_fst, hres]
  · rw [unmount_tape_fst, hres]
    exact h2

/-- Witness for C5 at a concrete environment where `umount` fails and
`fusermount -u` succeeds with distinctive output. -/
theorem unmount_fallback_order_witness :
    unmount_attempts runC5 "/mnt/tape"
        = [unmount_cmd1 "/mnt/tape", unmount_cmd2 "/mnt/tape"] ∧
    (unmount_tape runC5 [] "/mnt/tape").1
        = run_command (runC5 (unmount_cmd2 "/mnt/tape")) ∧
    (unmount_tape runC5 [] "/mnt/tape").1.1 = true :=
  unmount_fallback_order runC5 [] "/mnt/tape" (by decide) (by decide)

/-- Claim C10: the in-memory mount map changes only on success — a mount
adds its entry exactly when the mount succeeded (all early-return and
all-variants-failed paths leave it unchanged), and an unmount removes the
entry exactly when an unmount command succeeded. -/
theorem mount_map_changes_only_on_success
    (env : MountEnv) (runU : String → CmdOutcome)
    (mounted : List (String × MountInfo))
    (device mount_point options mp2 : String) :
    ((mount_tape env mounted device mount_point options).2
      = if (mount_tape env mounted device mount_point options).1.1
        then dictSet mounted mount_point ⟨device, mount_point, options⟩
        else mounted) ∧
    ((unmount_tape runU mounted mp2).2
      = if (unmount_tape runU mounted mp2).1.1
        then dictErase mounted mp2
        else mounted) := by
  constructor
  · cases hpre : mount_point_pre env mount_point with
    | some r =>
      have hr : r.1 = false := mount_point_pre_fails hpre
      simp [mount_tape, hpre, hr]
    | none =>
      cases hb : (try_commands (fun c => run_command_no_capture (env.run c)) (false, "", "")
          (mount_commands device mount_point options)).1.1 with
      | false => simp [mount_tape, hpre, hb]
      | true => simp [mount_tape, hpre, hb]
  · cases hb : (try_commands (fun c => run_command (runU c)) (false, "", "")
        (unmount_commands mp2)).1.1 with
    | false => simp [unmount_tape, hb]
    | true =>
      cases hany : mounted.any (fun p => p.1 == mp2) with
      | true => simp [unmount_tape, hb, hany]
      | false =>
        have herase : dictErase mounted mp2 = mounted := by
          unfold dictErase
          apply List.filter_eq_self.mpr
          intro p hp
          have := List.any_eq_false.mp hany p hp
          simpa using this
        simp [unmount_tape, hb, hany, herase]

/-- Counterexample to claim C2: for the device set {st0, st0a, nst0, nst0l}
the scan's ordered list does not continue with `/dev/nst0` after
`/dev/st0`; indeed the non-rewinding `nst*` nodes are never enumerated at
all (the glob only matches `st*`). -/
theorem scan_order_counterexample :
    (refresh_drives envC2).tape_drives.take 2 ≠ ["/dev/st0", "/dev/nst0"] ∧
    "/dev/nst0" ∉ (refresh_drives envC2).tape_drives := by decide

/-- Claim C2 as amended: for the device set {st0, st0a, nst0, nst0l} the
scan returns `[/dev/st0, /dev/st0a]` — the basic rewinding device first,
then the variant rewinding device; non-rewinding devices are excluded. -/
theorem scan_order_primary_then_override :
    (refresh_drives envC2).tape_drives = ["/dev/st0", "/dev/st0a"] := by decide

/-- Counterexample to claim C8: with a single rewinding-only drive, the
mode list selected by the non-rewinding preference is empty, yet device
selection still returns a device path rather than signaling
no-device-available. -/
theorem selection_ignores_mode_list_counterexample :
    selected_mode_list envC8 false = [] ∧
    select_device_no_mode envC8 = "/dev/st0" ∧
    select_device_no_mode envC8 ≠ "" := by decide

/-- Claim C8 as amended: selection does not consult the rewind-preference
mode lists; it returns the empty string (no device, falsy in the caller)
exactly when the discovered drive list is empty — so with a nonempty drive
list a device path is always returned, even when the preferred mode list
is empty. -/
theorem selection_empty_drive_list (env : ScanEnv) :
    select_device_no_mode env = "" ↔ (refresh_drives env).tape_drives = [] := by
  constructor
  · intro hsel
    by_contra hne
    rcases select_formula env hne with ⟨_, heq⟩ | ⟨_, t, hdr⟩
    · rw [heq] at hsel
      exact absurd hsel (by decide)
    · have hmemd : select_device_no_mode env ∈ (refresh_drives env).tape_drives := by
        rw [hdr]
        exact List.mem_cons_self _ _
      exact absurd hsel (tape_drive_ne_empty hmemd)
  · intro h
    simp [select_device_no_mode, get_selected_device, update_mount_tab_default, h]

/-- Witness for the amended C8, applying the equivalence at a scan
environment with no tape entries. -/
theorem selection_empty_drive_list_witness :
    (refresh_drives envEmpty).tape_drives = [] ∧
    select_device_no_mode envEmpty = "" :=
  ⟨by decide, (selection_empty_drive_list envEmpty).mpr (by decide)⟩

/-- Counterexample to claim C9: two scans over identical `/dev` contents
but a different `mt status` probe environment produce different results, so
a scan is not a function of the `/dev` contents alone. -/
theorem scan_depends_on_probe_counterexample :
    envC9a.entries = envC9b.entries ∧
    (refresh_drives envC9a).tape_drives ≠ (refresh_drives envC9b).tape_drives := by
  decide

/-- Claim C9 as amended: a scan is a pure function of the `/dev` contents
together with the per-device probe outcomes — it does not depend on any
prior manager state, and immediately rescanning in the same environment
reproduces the same state (scans are idempotent). -/
theorem scan_independent_of_prior_state (s1 s2 : ManagerState) (env : ScanEnv) :
    (refresh_drives_method s1 env).tape_drives
        = (refresh_drives_method s2 env).tape_drives ∧
    (refresh_drives_method s1 env).physical_drives
        = (refresh_drives_method s2 env).physical_drives ∧
    (refresh_drives_method s1 env).permission_issues
        = (refresh_drives_method s2 env).permission_issues ∧
    (refresh_drives_method s1 env).single_drive_mode
        = (refresh_drives_method s2 env).single_drive_mode ∧
    refresh_drives_method (refresh_drives_method s1 env) env
        = refresh_drives_method s1 env :=
  ⟨rfl, rfl, rfl, rfl, rfl⟩

/-- Claim C6: the accessibility probe classifies open-for-read outcomes
(permission denied → inaccessible; busy/no-such-device/success →
accessible); `permissionIssues` has no duplicates, and it contains exactly
the listed devices whose probe raised a permission error (such devices do
stay listed). -/
theorem permission_issue_classification (env : ScanEnv) (d : String) :
    (can_access_device AccessOutcome.permissionError = false ∧
     can_access_device AccessOutcome.otherError = true ∧
     can_access_device AccessOutcome.ok = true) ∧
    (refresh_drives env).permission_issues.Nodup ∧
    (d ∈ (refresh_drives env).permission_issues →
      d ∈ (refresh_drives env).tape_drives ∧
      env.accessProbe d = AccessOutcome.permissionError) ∧
    (d ∈ (refresh_drives env).tape_drives →
      env.accessProbe d = AccessOutcome.permissionError →
      d ∈ (refresh_drives env).permission_issues) := by
  refine ⟨⟨rfl, rfl, rfl⟩, ?_, ?_, ?_⟩
  · show ((primary_perm_issues env ++ override_perm_issues env).dedup).Nodup
    exact List.nodup_dedup _
  · intro hd
    have hd' : d ∈ primary_perm_issues env ++ override_perm_issues env :=
      List.mem_dedup.mp hd
    rcases List.mem_append.mp hd' with hp | ho
    · unfold primary_perm_issues at hp
      split at hp
      case isTrue hcond =>
        have hd0 : d = "/dev/st0" := by simpa using hp
        subst hd0
        obtain ⟨hpres, hacc⟩ := Bool.and_eq_true_iff.mp hcond
        constructor
        · show "/dev/st0" ∈ primary_drives env ++ sortedPy (override_devices env)
          apply List.mem_append_left
          simp [primary_drives, hpres]
        · have hca : can_access_device (env.accessProbe "/dev/st0") = false := by
            simpa using hacc
          cases hprobe : env.accessProbe "/dev/st0" with
          | ok => rw [hprobe] at hca; simp [can_access_device] at hca
          | permissionError => rfl
          | otherError => rw [hprobe] at hca; simp [can_access_device] at hca
      case isFalse => simp at hp
    · unfold override_perm_issues at ho
      rcases List.mem_map.mp ho with ⟨e, he, rfl⟩
      rcases List.mem_filter.mp he with ⟨he1, he2⟩
      constructor
      · show devPath e ∈ primary_drives env ++ sortedPy (override_devices env)
        apply List.mem_append_right
        rw [mem_sortedPy]
        exact List.mem_map.mpr ⟨e, he1, rfl⟩
      · have hca : can_access_device (env.accessProbe (devPath e)) = false := by
          simpa using he2
        cases hprobe : env.accessProbe (devPath e) with
        | ok => rw [hprobe] at hca; simp [can_access_device] at hca
        | permissionError => rfl
        | otherError => rw [hprobe] at hca; simp [can_access_device] at hca
  · intro hd hperm
    apply List.mem_dedup.mpr
    have hd' : d ∈ primary_drives env ++ sortedPy (override_devices env) := hd
    rcases List.mem_append.mp hd' with hp | ho
    · unfold primary_drives at hp
      split at hp
      case isTrue hcond =>
        have hd0 : d = "/dev/st0" := by simpa using hp
        subst hd0
        apply List.mem_append_left
        have hacc : can_access_device (env.accessProbe "/dev/st0") = false := by
          simp [hperm, can_access_device]
        simp [primary_perm_issues, hcond, hacc]
      case isFalse => simp at hp
    · rw [mem_sortedPy] at ho
      rcases List.mem_map.mp ho with ⟨e, he, rfl⟩
      apply List.mem_append_right
      apply List.mem_map.mpr
      refine ⟨e, ?_, rfl⟩
      apply List.mem_filter.mpr
      refine ⟨he, ?_⟩
      rw [hperm]
      rfl

/-- Witness for C6 at a concrete environment where the probe of `/dev/st0`
raises a permission error: the device is recorded in `permissionIssues`
while staying listed. -/
theorem permission_issue_classification_witness :
    ("/dev/st0" ∈ (refresh_drives envC6).tape_drives ∧
      envC6.accessProbe "/dev/st0" = AccessOutcome.permissionError) ∧
    "/dev/st0" ∈ (refresh_drives envC6).permission_issues :=
  ⟨(permission_issue_classification envC6 "/dev/st0").2.2.1 (by decide),
   (permission_issue_classification envC6 "/dev/st0").2.2.2 (by decide) rfl⟩

/-- Claim C7: every device in the scan result comes from a `/dev` entry
that is a character device, is not one of the reserved stream names, and
matches the pattern `^n?st\d+[alm]?$`. -/
theorem scan_filters_device_names (env : ScanEnv) (d : String)
    (hd : d ∈ (refresh_drives env).tape_drives) :
    ∃ e ∈ env.entries, d = devPath e ∧ e.isCharDevice = true ∧
      e.name ∉ reservedNames ∧ matches_nst_name e.name = true := by
  have hd' : d ∈ primary_drives env ++ sortedPy (override_devices env) := hd
  rcases List.mem_append.mp hd' with hp | ho
  · unfold primary_drives at hp
    split at hp
    case isTrue hcond =>
      have hd0 : d = "/dev/st0" := by simpa using hp
      subst hd0
      rcases List.any_eq_true.mp hcond with ⟨e, he, hee⟩
      obtain ⟨hname, hchar⟩ := Bool.and_eq_true_iff.mp hee
      have hname' : e.name = "st0" := by simpa using hname
      refine ⟨e, he, ?_, hchar, ?_, ?_⟩
      · unfold devPath
        rw [hname']
        decide
      · rw [hname']
        decide
      · rw [hname']
        decide
    case isFalse => simp at hp
  · rw [mem_sortedPy] at ho
    rcases List.mem_map.mp ho with ⟨e, he, rfl⟩
    rcases List.mem_filter.mp he with ⟨hee, hacc⟩
    unfold override_accept at hacc
    simp only [Bool.and_eq_true] at hacc
    obtain ⟨⟨⟨⟨⟨hglob, hchar⟩, hres⟩, hst⟩, hne⟩, hmt⟩ := hacc
    refine ⟨e, hee, rfl, hchar, ?_, ?_⟩
    · intro hmem
      have : reservedNames.contains e.name = true := by
        simpa using hmem
      rw [this] at hres
      simp at hres
    · unfold matches_nst_name
      unfold matches_st_name at hst
      exact matches_nst_of_st hst

/-- Witness for C7 at a concrete environment with a single `st0` entry. -/
theorem scan_filters_device_names_witness :
    ∃ e ∈ envC8.entries, "/dev/st0" = devPath e ∧ e.isCharDevice = true ∧
      e.name ∉ reservedNames ∧ matches_nst_name e.name = true :=
  scan_filters_device_names envC8 "/dev/st0" (by decide)

/-- Claim C1: when the rewinding-family list of the physical drive of the
selected device contains both a `default`-mode node and an `a`-suffixed
node, selection with no explicit mode returns the `default` node — the
drive's basic path `/dev/st<N>` — and never the `a`-suffixed node. -/
theorem selection_defaults_over_auto_density (env : ScanEnv) (pid : String)
    (pd : PhysicalDrive)
    (hmem : (pid, pd) ∈ (refresh_drives env).physical_drives)
    (hdef : ∃ m ∈ pd.rewinding, m.mode = "default")
    (ha : ∃ m ∈ pd.rewinding, m.mode = "a")
    (hsel : select_device_no_mode env ∈ pd.rewinding.map ModeInfo.device) :
    select_device_no_mode env = "/dev/st" ++ pd.drive_number ∧
    ∀ m ∈ pd.rewinding, m.mode = "a" → select_device_no_mode env ≠ m.device := by
  have hinv := groupinv_refresh env
  obtain ⟨hkey, hrew⟩ := hinv pid pd hmem
  rcases List.mem_map.mp hsel with ⟨msel, hmsel, hmseldev⟩
  obtain ⟨hsel_drv, ssel, hparse_sel, _⟩ := hrew msel hmsel
  rw [hmseldev] at hsel_drv hparse_sel
  obtain ⟨mdef, hmdef, hmdef_mode⟩ := hdef
  obtain ⟨hdef_drv, sdef, hparse_def, hmode_def⟩ := hrew mdef hmdef
  have hsdef : sdef = "" := by
    by_contra hne
    rw [if_neg hne] at hmode_def
    have hda : sdef = "default" := hmode_def.symm.trans hmdef_mode
    rcases (parse_device_path_spec hparse_def).2 with h0 | h0 | h0 | h0 <;>
      rw [h0] at hda <;> exact absurd hda (by decide)
  have hdef_dev : mdef.device = "/dev/st" ++ pd.drive_number := by
    have hshape := (parse_device_path_spec hparse_def).1
    rw [hsdef, str_append_empty] at hshape
    exact hshape
  have hdrv_ne : (refresh_drives env).tape_drives ≠ [] := by
    intro hnil
    rw [hnil] at hsel_drv
    exact absurd hsel_drv (List.not_mem_nil _)
  have hgoal1 : select_device_no_mode env = "/dev/st" ++ pd.drive_number := by
    rcases select_formula env hdrv_ne with ⟨hc, hsel_eq⟩ | ⟨hnc, t, hdrives⟩
    · have hparse0 : parse_device_path "/dev/st0" = some (true, "0", "") := by decide
      rw [hsel_eq, hparse0] at hparse_sel
      have hps := Option.some_inj.mp hparse_sel
      have hn : pd.drive_number = "0" := by
        have := congrArg (fun q : Bool × String × String => q.2.1) hps
        simpa using this.symm
      rw [hsel_eq, hn]
      decide
    · have hsorted : (refresh_drives env).tape_drives = sortedPy (override_devices env) :=
        drives_eq_sorted_of_not_primary hnc
      have hso : sortedPy (override_devices env) = select_device_no_mode env :: t := by
        rw [← hsorted]
        exact hdrives
      have hdm : mdef.device ∈ sortedPy (override_devices env) := by
        rw [← hsorted]
        exact hdef_drv
      have hle : select_device_no_mode env ≤ mdef.device := sortedPy_head_le hso hdm
      have hsel_shape := (parse_device_path_spec hparse_sel).1
      rw [hdef_dev, hsel_shape] at hle
      have hssel : ssel = "" := str_append_le_self hle
      rw [hsel_shape, hssel, str_append_empty]
  refine ⟨hgoal1, ?_⟩
  intro m hm hmode
  obtain ⟨_, sa, hparse_a, hmode_a⟩ := hrew m hm
  have hsa : sa = "a" := by
    by_cases h0 : sa = ""
    · rw [if_pos h0] at hmode_a
      exact absurd (hmode_a.symm.trans hmode) (by decide)
    · rw [if_neg h0] at hmode_a
      exact hmode_a.symm.trans hmode
  have hm_dev : m.device = ("/dev/st" ++ pd.drive_number) ++ "a" := by
    have hshape := (parse_device_path_spec hparse_a).1
    rw [hsa] at hshape
    exact hshape
  rw [hm_dev, hgoal1]
  exact str_append_right_ne (by decide)

/-- Witness for C1 at a concrete single-drive environment holding both
`/dev/st0` (default) and `/dev/st0a` (auto-density): the default node is
selected and the `a` node is not. -/
theorem selection_defaults_over_auto_density_witness :
    select_device_no_mode envC1 = "/dev/st" ++ pdC1.drive_number ∧
    select_device_no_mode envC1 ≠ "/dev/st0a" :=
  ⟨(selection_defaults_over_auto_density envC1 "drive0" pdC1 (by decide)
      ⟨⟨"/dev/st0", "default", "Default (compression enabled)"⟩, by decide, rfl⟩
      ⟨⟨"/dev/st0a", "a", "Auto-density selection"⟩, by decide, rfl⟩ (by decide)).1,
   (selection_defaults_over_auto_density envC1 "drive0" pdC1 (by decide)
      ⟨⟨"/dev/st0", "default", "Default (compression enabled)"⟩, by decide, rfl⟩
      ⟨⟨"/dev/st0a", "a", "Auto-density selection"⟩, by decide, rfl⟩ (by decide)).2
     ⟨"/dev/st0a", "a", "Auto-density selection"⟩ (by decide) rfl⟩

end LTFS
